import Mathlib

/-!
Verification development for a clippy-lints configuration generator.

The program fetches the catalog of known lints, classifies each lint
according to a built-in policy (the core being an "exhaustive group split"
of the `restriction` group), and renders a TOML-shaped configuration block.
The definitions below are a shallow embedding of the classifier and emitter
core (`src/main.rs`); machine strings become `String`, vectors become
`List`, fallible code returns explicit result types, and the one reachable
panic (`checked_sub(..).expect(..)`) is modelled as an explicit
`panicked` outcome.
-/

/-- The closed enumeration of lint groups (`enum LintGroup`). -/
inductive LintGroup where
  | Cargo
  | Complexity
  | Correctness
  | Nursery
  | Pedantic
  | Perf
  | Restriction
  | Style
  | Suspicious
  | Deprecated
deriving DecidableEq

/-- Canonical lowercase name of a group (`LintGroup::as_str`). -/
def LintGroup.as_str : LintGroup → String
  | .Cargo => "cargo"
  | .Complexity => "complexity"
  | .Correctness => "correctness"
  | .Nursery => "nursery"
  | .Pedantic => "pedantic"
  | .Perf => "perf"
  | .Restriction => "restriction"
  | .Style => "style"
  | .Suspicious => "suspicious"
  | .Deprecated => "deprecated"

/-- The closed enumeration of lint levels (`enum LintLevel`). -/
inductive LintLevel where
  | Allow
  | Warn
  | Deny
  | None
deriving DecidableEq

/-- Canonical lowercase name of a level (`LintLevel::as_str`). -/
def LintLevel.as_str : LintLevel → String
  | .Allow => "allow"
  | .Warn => "warn"
  | .Deny => "deny"
  | .None => "none"

/-- The CLI profile (`enum Profile`). -/
inductive Profile where
  | Publish
  | Personal
deriving DecidableEq

/-- Parsed arguments (`struct Args`). -/
structure Args where
  profile : Profile
  workspace : Bool
deriving DecidableEq

/-- A catalog entry as used downstream (`struct Lint`): id and group.
Lint ids are opaque strings compared only for equality. -/
structure Lint where
  id : String
  group : LintGroup
deriving DecidableEq

/-- A raw decoded catalog entry (`struct LintResponse`): also carries the
upstream default level and version, which are unused downstream. -/
structure LintResponse where
  id : String
  group : LintGroup
  default_level : LintLevel
  version : String
deriving DecidableEq

/-- Priority attached to a setting (`enum PrioritySetting`). -/
inductive PrioritySetting where
  | Explicit (i : Int)
  | Unspecified
deriving DecidableEq

/-- Conversion from an optional integer (`impl From<Option<isize>>`). -/
def PrioritySetting.fromOption : Option Int → PrioritySetting
  | some i => .Explicit i
  | none => .Unspecified

/-- A per-lint setting (`struct SingleLintConfig`). -/
structure SingleLintConfig where
  lint : String
  priority : PrioritySetting
  level : LintLevel
deriving DecidableEq

/-- A per-group setting (`struct GroupConfig`). -/
structure GroupConfig where
  group : LintGroup
  priority : PrioritySetting
  level : LintLevel
deriving DecidableEq

/-- A setting is a tagged union of the two (`enum Setting`). -/
inductive Setting where
  | Single (c : SingleLintConfig)
  | Group (c : GroupConfig)
deriving DecidableEq

/-- Classification tag used inside the exhaustive split
(`enum ExhaustiveGroupClassification`). -/
inductive ExhaustiveGroupClassification where
  | Default
  | Exception
deriving DecidableEq

/-- The result of the exhaustive split (`struct ExhausiveGroup`, keeping
the source's spelling). -/
structure ExhausiveGroup where
  defaults : List Setting
  exceptions : List Setting
deriving DecidableEq

/-- The exception list handed to the exhaustive split (`struct Exceptions`). -/
structure Exceptions where
  level : LintLevel
  lints : List String
deriving DecidableEq

/-- The decoded catalog as consumed by the classifier (`struct AllLints`). -/
abbrev AllLints := List Lint

/-- Projection from the decoded response to the downstream catalog
(`AllLints::from_response`): keep only id and group. -/
def AllLints.from_response (response : List LintResponse) : AllLints :=
  response.map (fun lint => ⟨lint.id, lint.group⟩)

/-- Constructor helper for group settings (`Setting::group`). -/
def Setting.group (group : LintGroup) (level : LintLevel) (priority : Option Int) : Setting :=
  Setting.Group ⟨group, PrioritySetting.fromOption priority, level⟩

/-- Rust's `usize::checked_sub`: `none` models the `None` that makes the
source's `.expect` panic. -/
def checked_sub (a b : Nat) : Option Nat :=
  if b ≤ a then some (a - b) else none

/-- The ids of the catalog entries belonging to a group, in catalog order
(the local `all_lints_in_group` of `split_group_exhaustive`). -/
def groupIds (all_lints : AllLints) (group : LintGroup) : List String :=
  (all_lints.filter (fun lint => decide (lint.group = group))).map Lint.id

/-- Outcome of `split_group_exhaustive`: `ok`, the validation error
(`anyhow!("lint {lint} not part of group {group}")`, keeping its data), or
the panic of the `.expect` on `checked_sub`. -/
inductive SplitResult where
  | ok (g : ExhausiveGroup)
  | err (id : String) (group : LintGroup)
  | panicked
deriving DecidableEq

/-- The per-element classification inside `split_group_exhaustive`'s map:
a catalog id of the group becomes an exception setting when the exception
list contains it, a default setting otherwise. -/
def classify_lint (exceptions : Exceptions) (default_level : LintLevel) (lint : String) :
    ExhaustiveGroupClassification × Setting :=
  if lint ∈ exceptions.lints then
    (ExhaustiveGroupClassification.Exception,
      Setting.Single ⟨lint, PrioritySetting.Unspecified, exceptions.level⟩)
  else
    (ExhaustiveGroupClassification.Default,
      Setting.Single ⟨lint, PrioritySetting.Unspecified, default_level⟩)

/-- The fold step of `split_group_exhaustive`: push the setting onto the
accumulator vector selected by its classification. -/
def split_fold_step (acc : ExhausiveGroup) (entry : ExhaustiveGroupClassification × Setting) :
    ExhausiveGroup :=
  match entry.1 with
  | ExhaustiveGroupClassification.Default => ⟨acc.defaults ++ [entry.2], acc.exceptions⟩
  | ExhaustiveGroupClassification.Exception => ⟨acc.defaults, acc.exceptions ++ [entry.2]⟩

/-- The exhaustive split (`Setting::split_group_exhaustive`): collect the
group's ids, fail on the first exception id not among them, evaluate the
capacity subtraction (whose `.expect` panics when it underflows), then
partition the group's ids into defaults and exceptions by a map + fold. -/
def Setting.split_group_exhaustive (all_lints : AllLints) (group : LintGroup)
    (default_level : LintLevel) (exceptions : Exceptions) : SplitResult :=
  match exceptions.lints.find? (fun lint => decide (lint ∉ groupIds all_lints group)) with
  | some lint => SplitResult.err lint group
  | none =>
    match checked_sub (groupIds all_lints group).length exceptions.lints.length with
    | none => SplitResult.panicked
    | some _ =>
      SplitResult.ok
        (((groupIds all_lints group).map (classify_lint exceptions default_level)).foldl
          split_fold_step ⟨[], []⟩)

/-- The allow-override builder (`Setting::allow`): for each listed id, in
list order, require a catalog entry with matching id and group; the first
missing id yields the error (`anyhow!("lint {} not in group {}")`, keeping
its data), mirroring `collect::<Result<Vec<_>>>` short-circuiting. -/
def Setting.allow (all_lints : AllLints) (group : LintGroup) :
    List String → Except (String × LintGroup) (List Setting)
  | [] => Except.ok []
  | lint :: rest =>
    match all_lints.find? (fun r => decide (r.id = lint ∧ r.group = group)) with
    | none => Except.error (lint, group)
    | some _ =>
      match Setting.allow all_lints group rest with
      | Except.error e => Except.error e
      | Except.ok settings =>
        Except.ok (Setting.Single ⟨lint, PrioritySetting.Unspecified, LintLevel.Allow⟩ :: settings)

/-- A config group (`struct ConfigGroup`): an optional comment and an
ordered sequence of settings. -/
structure ConfigGroup where
  comment : Option String
  settings : List Setting
deriving DecidableEq

/-- The full configuration (`struct Config`). -/
structure Config where
  groups : List ConfigGroup
deriving DecidableEq

/-- One rendered setting line, the match inside `Config::to_toml`'s inner
loop: `key = "level"` for unspecified priority, and
`key = \x7b level = "…", priority = p \x7d` for an explicit one. -/
def Setting.render : Setting → String
  | .Single c =>
    match c.priority with
    | .Explicit p =>
      c.lint ++ " = \x7b level = \"" ++ c.level.as_str ++ "\", priority = " ++ toString p ++ " \x7d"
    | .Unspecified => c.lint ++ " = \"" ++ c.level.as_str ++ "\""
  | .Group gc =>
    match gc.priority with
    | .Explicit p =>
      gc.group.as_str ++ " = \x7b level = \"" ++ gc.level.as_str ++ "\", priority = "
        ++ toString p ++ " \x7d"
    | .Unspecified => gc.group.as_str ++ " = \"" ++ gc.level.as_str ++ "\""

/-- The inner setting loop of `Config::to_toml`: every non-last setting is
followed by one newline; the last setting is followed by one newline
exactly when the surrounding group is not the last group. -/
def renderSettings : List Setting → Bool → String
  | [], _ => ""
  | [s], last_group => s.render ++ (if last_group then "" else "\n")
  | s :: rest@(_ :: _), last_group => s.render ++ "\n" ++ renderSettings rest last_group

/-- One group's contribution in `Config::to_toml`: the optional comment
line, the settings, and one more newline when the group is not the last. -/
def renderGroup (g : ConfigGroup) (last_group : Bool) : String :=
  (match g.comment with
   | some comment => "# " ++ comment ++ "\n"
   | none => "") ++
  renderSettings g.settings last_group ++
  (if last_group then "" else "\n")

/-- The outer group loop of `Config::to_toml`. -/
def renderGroups : List ConfigGroup → String
  | [] => ""
  | [g] => renderGroup g true
  | g :: rest@(_ :: _) => renderGroup g false ++ renderGroups rest

/-- The emitter (`Config::to_toml`): header line selected by the
workspace flag, then the groups. -/
def Config.to_toml (c : Config) (args : Args) : String :=
  (if args.workspace then "[workspace.lints.clippy]\n" else "[lints.clippy]\n") ++
  renderGroups c.groups

/-- Concatenation of a list of strings with a separator between
consecutive elements. -/
def joinSep (sep : String) : List String → String
  | [] => ""
  | [x] => x
  | x :: rest@(_ :: _) => x ++ sep ++ joinSep sep rest

/-- Modelled from the spec's words, for comparison with the emitter: a
setting line is `<key> = "<level>"` for an unspecified priority and
`<key> = \x7b level = "<level>", priority = <p> \x7d` for an explicit
one, the key being the lint id or the group's canonical name. -/
def spec_setting_line : Setting → String
  | .Single c =>
    match c.priority with
    | .Explicit p =>
      c.lint ++ " = \x7b level = \"" ++ c.level.as_str ++ "\", priority = " ++ toString p ++ " \x7d"
    | .Unspecified => c.lint ++ " = \"" ++ c.level.as_str ++ "\""
  | .Group gc =>
    match gc.priority with
    | .Explicit p =>
      gc.group.as_str ++ " = \x7b level = \"" ++ gc.level.as_str ++ "\", priority = "
        ++ toString p ++ " \x7d"
    | .Unspecified => gc.group.as_str ++ " = \"" ++ gc.level.as_str ++ "\""

/-- Modelled from the spec's words: a group's block is the optional
`# <comment>` line followed by its setting lines separated by single
newlines. -/
def spec_group_block (g : ConfigGroup) : String :=
  (match g.comment with
   | some comment => "# " ++ comment ++ "\n"
   | none => "") ++
  joinSep "\n" (g.settings.map spec_setting_line)

/-- Modelled from the spec's words: the header line selected by the
workspace flag, then the group blocks separated by exactly one blank
line. -/
def spec_render (c : Config) (args : Args) : String :=
  (if args.workspace then "[workspace.lints.clippy]\n" else "[lints.clippy]\n") ++
  joinSep "\n\n" (c.groups.map spec_group_block)

/-- The fixed exception list for the `restriction` group (the literal
vector in `main`). -/
def restriction_exception_lints : List String :=
  ["allow_attributes",
   "allow_attributes_without_reason",
   "arithmetic_side_effects",
   "as_conversions",
   "assertions_on_result_states",
   "cfg_not_test",
   "clone_on_ref_ptr",
   "create_dir",
   "dbg_macro",
   "decimal_literal_representation",
   "default_numeric_fallback",
   "deref_by_slicing",
   "disallowed_script_idents",
   "else_if_without_else",
   "empty_drop",
   "empty_enum_variants_with_brackets",
   "empty_structs_with_brackets",
   "exit",
   "filetype_is_file",
   "float_arithmetic",
   "float_cmp_const",
   "fn_to_numeric_cast_any",
   "format_push_string",
   "get_unwrap",
   "indexing_slicing",
   "infinite_loop",
   "inline_asm_x86_att_syntax",
   "inline_asm_x86_intel_syntax",
   "integer_division",
   "iter_over_hash_type",
   "large_include_file",
   "let_underscore_must_use",
   "let_underscore_untyped",
   "little_endian_bytes",
   "lossy_float_literal",
   "map_err_ignore",
   "mem_forget",
   "missing_assert_message",
   "missing_asserts_for_indexing",
   "mixed_read_write_in_expression",
   "modulo_arithmetic",
   "multiple_inherent_impl",
   "multiple_unsafe_ops_per_block",
   "mutex_atomic",
   "panic",
   "partial_pub_fields",
   "pattern_type_mismatch",
   "print_stderr",
   "print_stdout",
   "pub_without_shorthand",
   "rc_buffer",
   "rc_mutex",
   "redundant_type_annotations",
   "renamed_function_params",
   "rest_pat_in_fully_bound_structs",
   "same_name_method",
   "self_named_module_files",
   "semicolon_inside_block",
   "str_to_string",
   "string_add",
   "string_lit_chars_any",
   "string_slice",
   "string_to_string",
   "suspicious_xor_used_as_pow",
   "tests_outside_test_module",
   "todo",
   "try_err",
   "undocumented_unsafe_blocks",
   "unimplemented",
   "unnecessary_safety_comment",
   "unnecessary_safety_doc",
   "unnecessary_self_imports",
   "unneeded_field_pattern",
   "unseparated_literal_suffix",
   "unused_result_ok",
   "unwrap_used",
   "use_debug",
   "verbose_file_reads"]

/-- The cargo override list of `main`: always `multiple_crate_versions`,
plus `cargo_common_metadata` for the personal profile. -/
def cargo_lints (profile : Profile) : List String :=
  ["multiple_crate_versions"] ++
    (match profile with
     | Profile.Publish => []
     | Profile.Personal => ["cargo_common_metadata"])

/-- The pedantic override list of `main`. -/
def pedantic_allows : List String :=
  ["too_many_lines", "must_use_candidate", "map_unwrap_or", "missing_errors_doc", "if_not_else"]

/-- The nursery override list of `main`. -/
def nursery_allows : List String :=
  ["missing_const_for_fn", "option_if_let_else", "redundant_pub_crate"]

/-- The complexity override list of `main`. -/
def complexity_allows : List String :=
  ["too_many_arguments"]

/-- The style override list of `main`. -/
def style_allows : List String :=
  ["new_without_default", "redundant_closure"]

/-- The first config group of `main`: the eight enabled groups with
explicit priority -1. -/
def enabled_groups_settings : List Setting :=
  [Setting.group LintGroup.Correctness LintLevel.Deny (some (-1)),
   Setting.group LintGroup.Suspicious LintLevel.Warn (some (-1)),
   Setting.group LintGroup.Style LintLevel.Warn (some (-1)),
   Setting.group LintGroup.Complexity LintLevel.Warn (some (-1)),
   Setting.group LintGroup.Perf LintLevel.Warn (some (-1)),
   Setting.group LintGroup.Cargo LintLevel.Warn (some (-1)),
   Setting.group LintGroup.Pedantic LintLevel.Warn (some (-1)),
   Setting.group LintGroup.Nursery LintLevel.Warn (some (-1))]

/-- The classifier error taxonomy. -/
inductive BuildError where
  | UnknownLintInGroup (id : String) (group : LintGroup)
  | ExceptionNotInGroup (id : String) (group : LintGroup)
deriving DecidableEq

/-- Outcome of the classifier portion of `main`. -/
inductive BuildResult where
  | ok (c : Config)
  | err (e : BuildError)
  | panicked
deriving DecidableEq

/-- The classifier portion of `main`: the exhaustive split of the
restriction group runs first (its `?` propagates), then the five
allow-override calls in the order the config vector evaluates them
(pedantic, nursery, complexity, style, cargo); on success the eight
config groups are assembled in the fixed order. -/
def build_config (all_lints : AllLints) (profile : Profile) : BuildResult :=
  match Setting.split_group_exhaustive all_lints LintGroup.Restriction LintLevel.Allow
      ⟨LintLevel.Warn, restriction_exception_lints⟩ with
  | SplitResult.panicked => BuildResult.panicked
  | SplitResult.err i g => BuildResult.err (BuildError.ExceptionNotInGroup i g)
  | SplitResult.ok restriction_group =>
    match Setting.allow all_lints LintGroup.Pedantic pedantic_allows with
    | Except.error e => BuildResult.err (BuildError.UnknownLintInGroup e.1 e.2)
    | Except.ok pedantic_settings =>
      match Setting.allow all_lints LintGroup.Nursery nursery_allows with
      | Except.error e => BuildResult.err (BuildError.UnknownLintInGroup e.1 e.2)
      | Except.ok nursery_settings =>
        match Setting.allow all_lints LintGroup.Complexity complexity_allows with
        | Except.error e => BuildResult.err (BuildError.UnknownLintInGroup e.1 e.2)
        | Except.ok complexity_settings =>
          match Setting.allow all_lints LintGroup.Style style_allows with
          | Except.error e => BuildResult.err (BuildError.UnknownLintInGroup e.1 e.2)
          | Except.ok style_settings =>
            match Setting.allow all_lints LintGroup.Cargo (cargo_lints profile) with
            | Except.error e => BuildResult.err (BuildError.UnknownLintInGroup e.1 e.2)
            | Except.ok cargo_settings =>
              BuildResult.ok ⟨[
                ⟨some "enabled groups", enabled_groups_settings⟩,
                ⟨some "pedantic overrides", pedantic_settings⟩,
                ⟨some "nursery overrides", nursery_settings⟩,
                ⟨some "complexity overrides", complexity_settings⟩,
                ⟨some "style overrides", style_settings⟩,
                ⟨some "cargo overrides", cargo_settings⟩,
                ⟨some "selected restrictions", restriction_group.exceptions⟩,
                ⟨some "restrictions explicit allows", restriction_group.defaults⟩]⟩

/-- Outcome of a full run of the core pipeline. -/
inductive RunResult where
  | ok (output : String)
  | err (e : BuildError)
  | panicked
deriving DecidableEq

/-- The core pipeline of `main` after the HTTP fetch: decode projection,
classification, rendering. -/
def run (response : List LintResponse) (args : Args) : RunResult :=
  match build_config (AllLints.from_response response) args.profile with
  | BuildResult.ok config => RunResult.ok (config.to_toml args)
  | BuildResult.err e => RunResult.err e
  | BuildResult.panicked => RunResult.panicked

/-- Whether a build succeeded. -/
def BuildResult.isOk : BuildResult → Bool
  | BuildResult.ok _ => true
  | _ => false

/-- Ids of the Single settings of a sequence, in order. -/
def settingIds (settings : List Setting) : List String :=
  settings.filterMap (fun s =>
    match s with
    | Setting.Single c => some c.lint
    | Setting.Group _ => none)

/-- A small concrete catalog used to instantiate theorems: three
restriction lints and one pedantic lint. -/
def sample_catalog : AllLints :=
  [⟨"a", LintGroup.Restriction⟩, ⟨"b", LintGroup.Restriction⟩,
   ⟨"c", LintGroup.Restriction⟩, ⟨"d", LintGroup.Pedantic⟩]

/-- A concrete catalog containing every lint the built-in policy
references, each in its expected group; on it the whole classifier
succeeds. -/
def full_catalog : AllLints :=
  restriction_exception_lints.map (fun i => ⟨i, LintGroup.Restriction⟩) ++
  pedantic_allows.map (fun i => ⟨i, LintGroup.Pedantic⟩) ++
  nursery_allows.map (fun i => ⟨i, LintGroup.Nursery⟩) ++
  complexity_allows.map (fun i => ⟨i, LintGroup.Complexity⟩) ++
  style_allows.map (fun i => ⟨i, LintGroup.Style⟩) ++
  ["multiple_crate_versions", "cargo_common_metadata"].map (fun i => ⟨i, LintGroup.Cargo⟩)

/-! ## Helper lemmas about the exhaustive split -/

/-- A successful `find?` decomposes the list at the first element
satisfying the predicate. -/
theorem find?_first_decomp {α : Type} {p : α → Bool} :
    ∀ {l : List α} {a : α}, l.find? p = some a →
      ∃ pre post, l = pre ++ a :: post ∧ p a = true ∧ ∀ x ∈ pre, p x = false := by
  intro l
  induction l with
  | nil => intro a h; simp [List.find?] at h
  | cons x xs ih =>
    intro a h
    by_cases hx : p x
    · rw [List.find?_cons_of_pos _ hx] at h
      obtain rfl : x = a := by simpa using h
      exact ⟨[], xs, rfl, hx, by simp⟩
    · rw [List.find?_cons_of_neg _ (by simpa using hx)] at h
      obtain ⟨pre, post, hl, hpa, hpre⟩ := ih h
      refine ⟨x :: pre, post, by simp [hl], hpa, ?_⟩
      intro y hy
      rcases List.mem_cons.mp hy with rfl | hy
      · simpa using hx
      · exact hpre y hy

/-- The fold of the split appends to `defaults` exactly the settings
classified `Default`, in order. -/
theorem split_foldl_defaults :
    ∀ (l : List (ExhaustiveGroupClassification × Setting)) (acc : ExhausiveGroup),
      (l.foldl split_fold_step acc).defaults =
        acc.defaults ++
          (l.filter (fun e => decide (e.1 = ExhaustiveGroupClassification.Default))).map Prod.snd := by
  intro l
  induction l with
  | nil => intro acc; simp
  | cons hd tl ih =>
    intro acc
    obtain ⟨cl, st⟩ := hd
    cases cl <;> simp [split_fold_step, ih]

/-- The fold of the split appends to `exceptions` exactly the settings
classified `Exception`, in order. -/
theorem split_foldl_exceptions :
    ∀ (l : List (ExhaustiveGroupClassification × Setting)) (acc : ExhausiveGroup),
      (l.foldl split_fold_step acc).exceptions =
        acc.exceptions ++
          (l.filter (fun e => decide (e.1 = ExhaustiveGroupClassification.Exception))).map Prod.snd := by
  intro l
  induction l with
  | nil => intro acc; simp
  | cons hd tl ih =>
    intro acc
    obtain ⟨cl, st⟩ := hd
    cases cl <;> simp [split_fold_step, ih]

/-- Classifying a list of ids and keeping the `Default` entries is
filtering out the exception ids and building default settings. -/
theorem classify_filter_default (E : Exceptions) (Ld : LintLevel) :
    ∀ M : List String,
      ((M.map (classify_lint E Ld)).filter
          (fun e => decide (e.1 = ExhaustiveGroupClassification.Default))).map Prod.snd =
        (M.filter (fun l => decide (l ∉ E.lints))).map
          (fun l => Setting.Single ⟨l, PrioritySetting.Unspecified, Ld⟩) := by
  intro M
  induction M with
  | nil => simp
  | cons x xs ih =>
    by_cases hx : x ∈ E.lints <;> simp [classify_lint, hx, ih]

/-- Classifying a list of ids and keeping the `Exception` entries is
filtering for the exception ids and building exception settings. -/
theorem classify_filter_exception (E : Exceptions) (Ld : LintLevel) :
    ∀ M : List String,
      ((M.map (classify_lint E Ld)).filter
          (fun e => decide (e.1 = ExhaustiveGroupClassification.Exception))).map Prod.snd =
        (M.filter (fun l => decide (l ∈ E.lints))).map
          (fun l => Setting.Single ⟨l, PrioritySetting.Unspecified, E.level⟩) := by
  intro M
  induction M with
  | nil => simp
  | cons x xs ih =>
    by_cases hx : x ∈ E.lints <;> simp [classify_lint, hx, ih]

/-- Inversion of a successful exhaustive split: validation passed, the
capacity subtraction did not underflow, and the two halves are the two
filters of the group's ids, in catalog order. -/
theorem split_ok_inv {all_lints : AllLints} {group : LintGroup} {default_level : LintLevel}
    {exceptions : Exceptions} {g : ExhausiveGroup}
    (h : Setting.split_group_exhaustive all_lints group default_level exceptions =
      SplitResult.ok g) :
    (∀ i ∈ exceptions.lints, i ∈ groupIds all_lints group) ∧
    exceptions.lints.length ≤ (groupIds all_lints group).length ∧
    g.defaults =
      ((groupIds all_lints group).filter (fun l => decide (l ∉ exceptions.lints))).map
        (fun l => Setting.Single ⟨l, PrioritySetting.Unspecified, default_level⟩) ∧
    g.exceptions =
      ((groupIds all_lints group).filter (fun l => decide (l ∈ exceptions.lints))).map
        (fun l => Setting.Single ⟨l, PrioritySetting.Unspecified, exceptions.level⟩) := by
  unfold Setting.split_group_exhaustive at h
  rcases hf : exceptions.lints.find?
      (fun lint => decide (lint ∉ groupIds all_lints group)) with _ | lint
  · rw [hf] at h
    simp only at h
    rcases hc : checked_sub (groupIds all_lints group).length exceptions.lints.length
      with _ | cap
    · rw [hc] at h; simp at h
    · rw [hc] at h
      simp only [SplitResult.ok.injEq] at h
      have hval : ∀ i ∈ exceptions.lints, i ∈ groupIds all_lints group := by
        intro i hi
        have := List.find?_eq_none.mp hf i hi
        simpa using this
      have hlen : exceptions.lints.length ≤ (groupIds all_lints group).length := by
        by_contra hgt
        simp [checked_sub] at hc
        omega
      refine ⟨hval, hlen, ?_, ?_⟩
      · rw [← h, split_foldl_defaults, classify_filter_default]
        simp
      · rw [← h, split_foldl_exceptions, classify_filter_exception]
        simp
  · rw [hf] at h
    simp at h

/-- If validation passes and the exception list is no longer than the
group, the exhaustive split succeeds. -/
theorem split_ok_of_valid {all_lints : AllLints} {group : LintGroup} {default_level : LintLevel}
    {exceptions : Exceptions}
    (hmem : ∀ i ∈ exceptions.lints, i ∈ groupIds all_lints group)
    (hlen : exceptions.lints.length ≤ (groupIds all_lints group).length) :
    ∃ g, Setting.split_group_exhaustive all_lints group default_level exceptions =
      SplitResult.ok g := by
  unfold Setting.split_group_exhaustive
  have hf : exceptions.lints.find?
      (fun lint => decide (lint ∉ groupIds all_lints group)) = none := by
    apply List.find?_eq_none.mpr
    intro i hi
    simpa using hmem i hi
  rw [hf]
  have hc : checked_sub (groupIds all_lints group).length exceptions.lints.length =
      some ((groupIds all_lints group).length - exceptions.lints.length) := by
    simp [checked_sub, hlen]
  simp only [hc]
  exact ⟨_, rfl⟩

/-- Projecting a list of freshly built Single settings back to ids is the
identity. -/
theorem settingIds_map_single (l : List String) (pr : PrioritySetting) (lv : LintLevel) :
    settingIds (l.map (fun x => Setting.Single ⟨x, pr, lv⟩)) = l := by
  induction l with
  | nil => rfl
  | cons x xs ih => simpa [settingIds] using ih

/-! ## Claims about the exhaustive split -/

/-- C1: whenever `split_group_exhaustive` returns Ok, the ids of the
returned `defaults` together with the ids of the returned `exceptions`
equal exactly the set of ids of catalog entries in the requested group,
and the two sequences are disjoint. -/
theorem split_coverage (all_lints : AllLints) (group : LintGroup) (default_level : LintLevel)
    (exceptions : Exceptions) (g : ExhausiveGroup)
    (h : Setting.split_group_exhaustive all_lints group default_level exceptions =
      SplitResult.ok g) :
    (∀ x, (x ∈ settingIds g.defaults ∨ x ∈ settingIds g.exceptions) ↔
      x ∈ groupIds all_lints group) ∧
    (∀ x, x ∈ settingIds g.defaults → x ∉ settingIds g.exceptions) := by
  obtain ⟨-, -, hdef, hexc⟩ := split_ok_inv h
  rw [hdef, hexc, settingIds_map_single, settingIds_map_single]
  constructor
  · intro x
    simp only [List.mem_filter, decide_eq_true_eq]
    by_cases hx : x ∈ exceptions.lints <;> tauto
  · intro x hd he
    simp only [List.mem_filter, decide_eq_true_eq] at hd he
    exact hd.2 he.2

theorem split_coverage_witness :
    (Setting.split_group_exhaustive sample_catalog LintGroup.Restriction LintLevel.Allow
        ⟨LintLevel.Warn, ["b"]⟩ =
      SplitResult.ok
        ⟨[Setting.Single ⟨"a", PrioritySetting.Unspecified, LintLevel.Allow⟩,
          Setting.Single ⟨"c", PrioritySetting.Unspecified, LintLevel.Allow⟩],
         [Setting.Single ⟨"b", PrioritySetting.Unspecified, LintLevel.Warn⟩]⟩) ∧
    ((∀ x, (x ∈ settingIds
        [Setting.Single ⟨"a", PrioritySetting.Unspecified, LintLevel.Allow⟩,
         Setting.Single ⟨"c", PrioritySetting.Unspecified, LintLevel.Allow⟩] ∨
        x ∈ settingIds [Setting.Single ⟨"b", PrioritySetting.Unspecified, LintLevel.Warn⟩]) ↔
        x ∈ groupIds sample_catalog LintGroup.Restriction) ∧
      (∀ x, x ∈ settingIds
        [Setting.Single ⟨"a", PrioritySetting.Unspecified, LintLevel.Allow⟩,
         Setting.Single ⟨"c", PrioritySetting.Unspecified, LintLevel.Allow⟩] →
        x ∉ settingIds [Setting.Single ⟨"b", PrioritySetting.Unspecified, LintLevel.Warn⟩])) :=
  ⟨by decide,
    split_coverage sample_catalog LintGroup.Restriction LintLevel.Allow ⟨LintLevel.Warn, ["b"]⟩
      ⟨[Setting.Single ⟨"a", PrioritySetting.Unspecified, LintLevel.Allow⟩,
        Setting.Single ⟨"c", PrioritySetting.Unspecified, LintLevel.Allow⟩],
       [Setting.Single ⟨"b", PrioritySetting.Unspecified, LintLevel.Warn⟩]⟩ (by decide)⟩

/-- C2: whenever `split_group_exhaustive` returns Ok, projecting each of
`defaults` and `exceptions` to ids yields a subsequence (sublist) of the
catalog's id order; no sorting happens. -/
theorem split_order_preservation (all_lints : AllLints) (group : LintGroup)
    (default_level : LintLevel) (exceptions : Exceptions) (g : ExhausiveGroup)
    (h : Setting.split_group_exhaustive all_lints group default_level exceptions =
      SplitResult.ok g) :
    List.Sublist (settingIds g.defaults) (all_lints.map Lint.id) ∧
    List.Sublist (settingIds g.exceptions) (all_lints.map Lint.id) := by
  obtain ⟨-, -, hdef, hexc⟩ := split_ok_inv h
  have hgroup : List.Sublist (groupIds all_lints group) (all_lints.map Lint.id) :=
    List.Sublist.map Lint.id (List.filter_sublist all_lints)
  constructor
  · rw [hdef, settingIds_map_single]
    exact (List.filter_sublist _).trans hgroup
  · rw [hexc, settingIds_map_single]
    exact (List.filter_sublist _).trans hgroup

theorem split_order_preservation_witness :
    (Setting.split_group_exhaustive sample_catalog LintGroup.Restriction LintLevel.Allow
        ⟨LintLevel.Warn, ["b"]⟩ =
      SplitResult.ok
        ⟨[Setting.Single ⟨"a", PrioritySetting.Unspecified, LintLevel.Allow⟩,
          Setting.Single ⟨"c", PrioritySetting.Unspecified, LintLevel.Allow⟩],
         [Setting.Single ⟨"b", PrioritySetting.Unspecified, LintLevel.Warn⟩]⟩) ∧
    (List.Sublist (settingIds
        [Setting.Single ⟨"a", PrioritySetting.Unspecified, LintLevel.Allow⟩,
         Setting.Single ⟨"c", PrioritySetting.Unspecified, LintLevel.Allow⟩])
      (sample_catalog.map Lint.id) ∧
     List.Sublist (settingIds [Setting.Single ⟨"b", PrioritySetting.Unspecified, LintLevel.Warn⟩])
      (sample_catalog.map Lint.id)) :=
  ⟨by decide,
    split_order_preservation sample_catalog LintGroup.Restriction LintLevel.Allow
      ⟨LintLevel.Warn, ["b"]⟩
      ⟨[Setting.Single ⟨"a", PrioritySetting.Unspecified, LintLevel.Allow⟩,
        Setting.Single ⟨"c", PrioritySetting.Unspecified, LintLevel.Allow⟩],
       [Setting.Single ⟨"b", PrioritySetting.Unspecified, LintLevel.Warn⟩]⟩ (by decide)⟩

/-- C3: the claim says an id appearing twice in the exception list is
never an error when each listed id belongs to the group; but the code's
capacity subtraction `all_lints_in_group_len.checked_sub(len_1).expect(..)`
underflows when the duplicated list is longer than the group, so on the
catalog `[{id: "a", group: restriction}]` with exception ids
`["a", "a"]` the code panics instead of returning Ok. -/
theorem split_duplicate_exception_panics :
    Setting.split_group_exhaustive [⟨"a", LintGroup.Restriction⟩] LintGroup.Restriction
      LintLevel.Allow ⟨LintLevel.Warn, ["a", "a"]⟩ = SplitResult.panicked := by
  decide

/-- C4: if some id of the exception list is not among the group's catalog
ids, `split_group_exhaustive` fails with an error naming the first such id
(in exception-list order) and the group, and no `ExhausiveGroup` is
produced. -/
theorem split_first_failure (all_lints : AllLints) (group : LintGroup)
    (default_level : LintLevel) (exceptions : Exceptions)
    (h : ∃ i ∈ exceptions.lints, i ∉ groupIds all_lints group) :
    ∃ j pre post,
      Setting.split_group_exhaustive all_lints group default_level exceptions =
        SplitResult.err j group ∧
      exceptions.lints = pre ++ j :: post ∧
      j ∉ groupIds all_lints group ∧
      ∀ x ∈ pre, x ∈ groupIds all_lints group := by
  obtain ⟨i, hi, hni⟩ := h
  obtain ⟨j, hj⟩ : ∃ j, exceptions.lints.find?
      (fun l => decide (l ∉ groupIds all_lints group)) = some j := by
    rcases hf : exceptions.lints.find?
        (fun l => decide (l ∉ groupIds all_lints group)) with _ | j
    · exact absurd (by simpa using List.find?_eq_none.mp hf i hi) (by simpa using hni)
    · exact ⟨j, rfl⟩
  obtain ⟨pre, post, hsplit, hpj, hpre⟩ := find?_first_decomp hj
  refine ⟨j, pre, post, ?_, hsplit, by simpa using hpj, ?_⟩
  · unfold Setting.split_group_exhaustive
    rw [hj]
  · intro x hx
    simpa using hpre x hx

theorem split_first_failure_witness :
    (∃ i ∈ ["b", "z"], i ∉ groupIds sample_catalog LintGroup.Restriction) ∧
    (∃ j pre post,
      Setting.split_group_exhaustive sample_catalog LintGroup.Restriction LintLevel.Allow
        ⟨LintLevel.Warn, ["b", "z"]⟩ = SplitResult.err j LintGroup.Restriction ∧
      (["b", "z"] : List String) = pre ++ j :: post ∧
      j ∉ groupIds sample_catalog LintGroup.Restriction ∧
      ∀ x ∈ pre, x ∈ groupIds sample_catalog LintGroup.Restriction) :=
  ⟨by decide, split_first_failure _ _ _ _ (by decide)⟩

/-- C5: whenever `split_group_exhaustive` returns Ok, every exception-list
id appears among the ids of `exceptions`; every setting of `exceptions` is
a Single at the exception level and every setting of `defaults` is a
Single at the default level, all with priority Unspecified. -/
theorem split_validation_totality (all_lints : AllLints) (group : LintGroup)
    (default_level : LintLevel) (exceptions : Exceptions) (g : ExhausiveGroup)
    (h : Setting.split_group_exhaustive all_lints group default_level exceptions =
      SplitResult.ok g) :
    (∀ i ∈ exceptions.lints, i ∈ settingIds g.exceptions) ∧
    (∀ s ∈ g.exceptions, ∃ l,
      s = Setting.Single ⟨l, PrioritySetting.Unspecified, exceptions.level⟩) ∧
    (∀ s ∈ g.defaults, ∃ l,
      s = Setting.Single ⟨l, PrioritySetting.Unspecified, default_level⟩) := by
  obtain ⟨hmem, -, hdef, hexc⟩ := split_ok_inv h
  refine ⟨?_, ?_, ?_⟩
  · intro i hi
    rw [hexc, settingIds_map_single]
    simp only [List.mem_filter, decide_eq_true_eq]
    exact ⟨hmem i hi, hi⟩
  · intro s hs
    rw [hexc] at hs
    obtain ⟨l, -, rfl⟩ := List.mem_map.mp hs
    exact ⟨l, rfl⟩
  · intro s hs
    rw [hdef] at hs
    obtain ⟨l, -, rfl⟩ := List.mem_map.mp hs
    exact ⟨l, rfl⟩

theorem split_validation_totality_witness :
    (Setting.split_group_exhaustive sample_catalog LintGroup.Restriction LintLevel.Allow
        ⟨LintLevel.Warn, ["b"]⟩ =
      SplitResult.ok
        ⟨[Setting.Single ⟨"a", PrioritySetting.Unspecified, LintLevel.Allow⟩,
          Setting.Single ⟨"c", PrioritySetting.Unspecified, LintLevel.Allow⟩],
         [Setting.Single ⟨"b", PrioritySetting.Unspecified, LintLevel.Warn⟩]⟩) ∧
    ((∀ i ∈ (["b"] : List String), i ∈ settingIds
        [Setting.Single ⟨"b", PrioritySetting.Unspecified, LintLevel.Warn⟩]) ∧
     (∀ s ∈ [Setting.Single ⟨"b", PrioritySetting.Unspecified, LintLevel.Warn⟩], ∃ l,
        s = Setting.Single ⟨l, PrioritySetting.Unspecified, LintLevel.Warn⟩) ∧
     (∀ s ∈ [Setting.Single ⟨"a", PrioritySetting.Unspecified, LintLevel.Allow⟩,
             Setting.Single ⟨"c", PrioritySetting.Unspecified, LintLevel.Allow⟩], ∃ l,
        s = Setting.Single ⟨l, PrioritySetting.Unspecified, LintLevel.Allow⟩)) :=
  ⟨by decide,
    split_validation_totality sample_catalog LintGroup.Restriction LintLevel.Allow
      ⟨LintLevel.Warn, ["b"]⟩
      ⟨[Setting.Single ⟨"a", PrioritySetting.Unspecified, LintLevel.Allow⟩,
        Setting.Single ⟨"c", PrioritySetting.Unspecified, LintLevel.Allow⟩],
       [Setting.Single ⟨"b", PrioritySetting.Unspecified, LintLevel.Warn⟩]⟩ (by decide)⟩

/-- C10: when the exception ids are pairwise distinct and validation
succeeds (every exception id is among the group's catalog ids, themselves
distinct), the capacity subtraction cannot underflow and the split
returns Ok. -/
theorem split_no_underflow (all_lints : AllLints) (group : LintGroup)
    (default_level : LintLevel) (exceptions : Exceptions)
    (hnodup : exceptions.lints.Nodup)
    (hmem : ∀ i ∈ exceptions.lints, i ∈ groupIds all_lints group)
    (_hgroup : (groupIds all_lints group).Nodup) :
    ∃ g, Setting.split_group_exhaustive all_lints group default_level exceptions =
      SplitResult.ok g :=
  split_ok_of_valid hmem ((hnodup.subperm (fun x hx => hmem x hx)).length_le)

theorem split_no_underflow_witness :
    ((["b", "c"] : List String).Nodup ∧
     (∀ i ∈ (["b", "c"] : List String), i ∈ groupIds sample_catalog LintGroup.Restriction) ∧
     (groupIds sample_catalog LintGroup.Restriction).Nodup) ∧
    (∃ g, Setting.split_group_exhaustive sample_catalog LintGroup.Restriction LintLevel.Allow
      ⟨LintLevel.Warn, ["b", "c"]⟩ = SplitResult.ok g) :=
  ⟨⟨by decide, by decide, by decide⟩,
    split_no_underflow _ _ _ _ (by decide) (by decide) (by decide)⟩

/-! ## Helper lemmas about the allow-override builder and the classifier -/

/-- A successful `Setting.allow` yields one allow-setting per listed id,
in list order, and every listed id has a matching catalog entry. -/
theorem allow_ok_eq {all_lints : AllLints} {group : LintGroup} :
    ∀ {lints : List String} {ss : List Setting},
      Setting.allow all_lints group lints = Except.ok ss →
      ss = lints.map
          (fun l => Setting.Single ⟨l, PrioritySetting.Unspecified, LintLevel.Allow⟩) ∧
      ∀ l ∈ lints, ∃ r ∈ all_lints, r.id = l ∧ r.group = group := by
  intro lints
  induction lints with
  | nil =>
    intro ss h
    simp [Setting.allow] at h
    simp [← h]
  | cons lint rest ih =>
    intro ss h
    unfold Setting.allow at h
    rcases hf : all_lints.find? (fun r => decide (r.id = lint ∧ r.group = group)) with _ | r
    · rw [hf] at h; simp at h
    · rw [hf] at h
      rcases hr : Setting.allow all_lints group rest with e | settings
      · rw [hr] at h; simp at h
      · rw [hr] at h
        simp only [Except.ok.injEq] at h
        obtain ⟨hss, hrest⟩ := ih hr
        have hfound : ∃ x ∈ all_lints, x.id = lint ∧ x.group = group :=
          ⟨r, List.mem_of_find?_eq_some hf, by simpa using List.find?_some hf⟩
        refine ⟨by rw [← h, hss]; rfl, ?_⟩
        intro l hl
        rcases List.mem_cons.mp hl with rfl | hl
        · exact hfound
        · exact hrest l hl

/-- A failing `Setting.allow` names the first listed id with no matching
catalog entry, together with the requested group; every earlier listed id
has a matching entry. -/
theorem allow_error_inv {all_lints : AllLints} {group : LintGroup} :
    ∀ {lints : List String} {i : String} {gg : LintGroup},
      Setting.allow all_lints group lints = Except.error (i, gg) →
      gg = group ∧ (¬ ∃ r ∈ all_lints, r.id = i ∧ r.group = group) ∧
      ∃ pre post, lints = pre ++ i :: post ∧
        ∀ x ∈ pre, ∃ r ∈ all_lints, r.id = x ∧ r.group = group := by
  intro lints
  induction lints with
  | nil => intro i gg h; simp [Setting.allow] at h
  | cons lint rest ih =>
    intro i gg h
    unfold Setting.allow at h
    rcases hf : all_lints.find? (fun r => decide (r.id = lint ∧ r.group = group)) with _ | r
    · rw [hf] at h
      simp only [Except.error.injEq, Prod.mk.injEq] at h
      obtain ⟨rfl, rfl⟩ := h
      have hno : ¬ ∃ x ∈ all_lints, x.id = lint ∧ x.group = group := by
        rintro ⟨x, hx, hxi⟩
        have hfx := List.find?_eq_none.mp hf x hx
        simp only [decide_eq_true_eq] at hfx
        exact hfx hxi
      exact ⟨rfl, hno, [], rest, rfl, by simp⟩
    · rw [hf] at h
      rcases hr : Setting.allow all_lints group rest with e | settings
      · rw [hr] at h
        simp only [Except.error.injEq] at h
        rw [h] at hr
        obtain ⟨hgg, hno, pre, post, hsplit, hpre⟩ := ih hr
        have hfound : ∃ x ∈ all_lints, x.id = lint ∧ x.group = group :=
          ⟨r, List.mem_of_find?_eq_some hf, by simpa using List.find?_some hf⟩
        refine ⟨hgg, hno, lint :: pre, post, by simp [hsplit], ?_⟩
        intro x hx
        rcases List.mem_cons.mp hx with rfl | hx
        · exact hfound
        · exact hpre x hx
      · rw [hr] at h; simp at h

/-- Inversion of a successful classification: the exhaustive split and
all five allow-override calls succeeded, and the configuration is the
eight groups assembled from their results. -/
theorem build_config_ok_inv {all_lints : AllLints} {profile : Profile} {c : Config}
    (h : build_config all_lints profile = BuildResult.ok c) :
    ∃ rg ps ns cs ss gs,
      Setting.split_group_exhaustive all_lints LintGroup.Restriction LintLevel.Allow
        ⟨LintLevel.Warn, restriction_exception_lints⟩ = SplitResult.ok rg ∧
      Setting.allow all_lints LintGroup.Pedantic pedantic_allows = Except.ok ps ∧
      Setting.allow all_lints LintGroup.Nursery nursery_allows = Except.ok ns ∧
      Setting.allow all_lints LintGroup.Complexity complexity_allows = Except.ok cs ∧
      Setting.allow all_lints LintGroup.Style style_allows = Except.ok ss ∧
      Setting.allow all_lints LintGroup.Cargo (cargo_lints profile) = Except.ok gs ∧
      c = ⟨[⟨some "enabled groups", enabled_groups_settings⟩,
            ⟨some "pedantic overrides", ps⟩,
            ⟨some "nursery overrides", ns⟩,
            ⟨some "complexity overrides", cs⟩,
            ⟨some "style overrides", ss⟩,
            ⟨some "cargo overrides", gs⟩,
            ⟨some "selected restrictions", rg.exceptions⟩,
            ⟨some "restrictions explicit allows", rg.defaults⟩]⟩ := by
  unfold build_config at h
  rcases hsp : Setting.split_group_exhaustive all_lints LintGroup.Restriction LintLevel.Allow
      ⟨LintLevel.Warn, restriction_exception_lints⟩ with rg | ⟨i, g⟩ | _
  · rw [hsp] at h
    rcases hp : Setting.allow all_lints LintGroup.Pedantic pedantic_allows with e | ps
    · simp [hp] at h
    · rw [hp] at h
      rcases hn : Setting.allow all_lints LintGroup.Nursery nursery_allows with e | ns
      · simp [hn] at h
      · rw [hn] at h
        rcases hc2 : Setting.allow all_lints LintGroup.Complexity complexity_allows with e | cs
        · simp [hc2] at h
        · rw [hc2] at h
          rcases hs2 : Setting.allow all_lints LintGroup.Style style_allows with e | ss
          · simp [hs2] at h
          · rw [hs2] at h
            rcases hg : Setting.allow all_lints LintGroup.Cargo (cargo_lints profile)
              with e | gs
            · simp [hg] at h
            · rw [hg] at h
              exact ⟨rg, ps, ns, cs, ss, gs, rfl, rfl, rfl, rfl, rfl, rfl,
                (BuildResult.ok.inj h).symm⟩
  · rw [hsp] at h; simp at h
  · rw [hsp] at h; simp at h

/-- C6: for an override list, every listed id must have a catalog entry
with matching id and group; a failure names the first offending id (in
list order) and the group and prevents any Config from being produced;
on success each listed id yields a Single allow-setting with priority
Unspecified, in list order. -/
theorem allow_override_validation (all_lints : AllLints) (group : LintGroup)
    (lints : List String) (profile : Profile) :
    (∀ ss, Setting.allow all_lints group lints = Except.ok ss →
      ss = lints.map
          (fun l => Setting.Single ⟨l, PrioritySetting.Unspecified, LintLevel.Allow⟩) ∧
      ∀ l ∈ lints, ∃ r ∈ all_lints, r.id = l ∧ r.group = group) ∧
    (∀ i gg, Setting.allow all_lints group lints = Except.error (i, gg) →
      gg = group ∧ (¬ ∃ r ∈ all_lints, r.id = i ∧ r.group = group) ∧
      ∃ pre post, lints = pre ++ i :: post ∧
        ∀ x ∈ pre, ∃ r ∈ all_lints, r.id = x ∧ r.group = group) ∧
    (∀ e, (Setting.allow all_lints LintGroup.Pedantic pedantic_allows = Except.error e ∨
           Setting.allow all_lints LintGroup.Nursery nursery_allows = Except.error e ∨
           Setting.allow all_lints LintGroup.Complexity complexity_allows = Except.error e ∨
           Setting.allow all_lints LintGroup.Style style_allows = Except.error e ∨
           Setting.allow all_lints LintGroup.Cargo (cargo_lints profile) = Except.error e) →
      ∀ c, build_config all_lints profile ≠ BuildResult.ok c) := by
  refine ⟨fun ss h => allow_ok_eq h, fun i gg h => allow_error_inv h, ?_⟩
  intro e he c hok
  obtain ⟨rg, ps, ns, cs, ss, gs, -, hp, hn, hc2, hs2, hg, -⟩ := build_config_ok_inv hok
  rcases he with he | he | he | he | he
  · rw [hp] at he; exact Except.noConfusion he
  · rw [hn] at he; exact Except.noConfusion he
  · rw [hc2] at he; exact Except.noConfusion he
  · rw [hs2] at he; exact Except.noConfusion he
  · rw [hg] at he; exact Except.noConfusion he

theorem allow_override_validation_witness :
    (Setting.allow full_catalog LintGroup.Pedantic pedantic_allows =
      Except.ok (pedantic_allows.map
        (fun l => Setting.Single ⟨l, PrioritySetting.Unspecified, LintLevel.Allow⟩)) ∧
     (∀ l ∈ pedantic_allows, ∃ r ∈ full_catalog,
        r.id = l ∧ r.group = LintGroup.Pedantic)) ∧
    (Setting.allow ([] : AllLints) LintGroup.Pedantic pedantic_allows =
      Except.error ("too_many_lines", LintGroup.Pedantic) ∧
     ∀ c, build_config ([] : AllLints) Profile.Personal ≠ BuildResult.ok c) := by
  have hall : Setting.allow full_catalog LintGroup.Pedantic pedantic_allows =
      Except.ok (pedantic_allows.map
        (fun l => Setting.Single ⟨l, PrioritySetting.Unspecified, LintLevel.Allow⟩)) := by
    rfl
  have herr : Setting.allow ([] : AllLints) LintGroup.Pedantic pedantic_allows =
      Except.error ("too_many_lines", LintGroup.Pedantic) := by
    rfl
  refine ⟨⟨hall, ?_⟩, herr, ?_⟩
  · exact ((allow_override_validation full_catalog LintGroup.Pedantic pedantic_allows
      Profile.Personal).1 _ hall).2
  · exact fun c => (allow_override_validation ([] : AllLints) LintGroup.Pedantic pedantic_allows
      Profile.Personal).2.2 _ (Or.inl herr) c

/-- C8: a successful classification yields exactly eight config groups in
the fixed order; the first consists of the eight Group settings
(correctness at deny, the rest at warn) with priority Explicit (-1), and
the cargo overrides group is multiple_crate_versions always, followed by
cargo_common_metadata exactly when the profile is personal. -/
theorem build_config_shape (all_lints : AllLints) (profile : Profile) (c : Config)
    (h : build_config all_lints profile = BuildResult.ok c) :
    ∃ g2 g3 g4 g5 g7 g8,
      c = ⟨[⟨some "enabled groups",
            [Setting.Group ⟨LintGroup.Correctness, PrioritySetting.Explicit (-1), LintLevel.Deny⟩,
             Setting.Group ⟨LintGroup.Suspicious, PrioritySetting.Explicit (-1), LintLevel.Warn⟩,
             Setting.Group ⟨LintGroup.Style, PrioritySetting.Explicit (-1), LintLevel.Warn⟩,
             Setting.Group ⟨LintGroup.Complexity, PrioritySetting.Explicit (-1), LintLevel.Warn⟩,
             Setting.Group ⟨LintGroup.Perf, PrioritySetting.Explicit (-1), LintLevel.Warn⟩,
             Setting.Group ⟨LintGroup.Cargo, PrioritySetting.Explicit (-1), LintLevel.Warn⟩,
             Setting.Group ⟨LintGroup.Pedantic, PrioritySetting.Explicit (-1), LintLevel.Warn⟩,
             Setting.Group ⟨LintGroup.Nursery, PrioritySetting.Explicit (-1), LintLevel.Warn⟩]⟩,
           ⟨some "pedantic overrides", g2⟩,
           ⟨some "nursery overrides", g3⟩,
           ⟨some "complexity overrides", g4⟩,
           ⟨some "style overrides", g5⟩,
           ⟨some "cargo overrides",
            Setting.Single ⟨"multiple_crate_versions", PrioritySetting.Unspecified,
              LintLevel.Allow⟩ ::
              (match profile with
               | Profile.Publish => []
               | Profile.Personal =>
                 [Setting.Single ⟨"cargo_common_metadata", PrioritySetting.Unspecified,
                   LintLevel.Allow⟩])⟩,
           ⟨some "selected restrictions", g7⟩,
           ⟨some "restrictions explicit allows", g8⟩]⟩ := by
  obtain ⟨rg, ps, ns, cs, ss, gs, -, -, -, -, -, hg, hceq⟩ := build_config_ok_inv h
  obtain ⟨hgs, -⟩ := allow_ok_eq hg
  refine ⟨ps, ns, cs, ss, rg.exceptions, rg.defaults, ?_⟩
  rw [hceq, hgs]
  cases profile <;> rfl

theorem build_config_shape_witness :
    ∃ c, build_config full_catalog Profile.Personal = BuildResult.ok c ∧
      ∃ g2 g3 g4 g5 g7 g8,
        c = ⟨[⟨some "enabled groups",
              [Setting.Group ⟨LintGroup.Correctness, PrioritySetting.Explicit (-1),
                LintLevel.Deny⟩,
               Setting.Group ⟨LintGroup.Suspicious, PrioritySetting.Explicit (-1),
                LintLevel.Warn⟩,
               Setting.Group ⟨LintGroup.Style, PrioritySetting.Explicit (-1), LintLevel.Warn⟩,
               Setting.Group ⟨LintGroup.Complexity, PrioritySetting.Explicit (-1),
                LintLevel.Warn⟩,
               Setting.Group ⟨LintGroup.Perf, PrioritySetting.Explicit (-1), LintLevel.Warn⟩,
               Setting.Group ⟨LintGroup.Cargo, PrioritySetting.Explicit (-1), LintLevel.Warn⟩,
               Setting.Group ⟨LintGroup.Pedantic, PrioritySetting.Explicit (-1), LintLevel.Warn⟩,
               Setting.Group ⟨LintGroup.Nursery, PrioritySetting.Explicit (-1),
                LintLevel.Warn⟩]⟩,
             ⟨some "pedantic overrides", g2⟩,
             ⟨some "nursery overrides", g3⟩,
             ⟨some "complexity overrides", g4⟩,
             ⟨some "style overrides", g5⟩,
             ⟨some "cargo overrides",
              Setting.Single ⟨"multiple_crate_versions", PrioritySetting.Unspecified,
                LintLevel.Allow⟩ ::
                (match Profile.Personal with
                 | Profile.Publish => []
                 | Profile.Personal =>
                   [Setting.Single ⟨"cargo_common_metadata", PrioritySetting.Unspecified,
                     LintLevel.Allow⟩])⟩,
             ⟨some "selected restrictions", g7⟩,
             ⟨some "restrictions explicit allows", g8⟩]⟩ := by
  have hok : (build_config full_catalog Profile.Personal).isOk = true := by decide
  rcases hb : build_config full_catalog Profile.Personal with c | e | _
  · exact ⟨c, rfl, build_config_shape full_catalog Profile.Personal c hb⟩
  · rw [hb] at hok; exact Bool.noConfusion hok
  · rw [hb] at hok; exact Bool.noConfusion hok

/-- C9: the classifier and emitter depend only on the id and group fields
of the decoded catalog entries; two responses agreeing on the sequence of
(id, group) pairs produce the same Config outcome and the same rendered
output. -/
theorem unused_fields_noninterference (r1 r2 : List LintResponse) (args : Args)
    (h : r1.map (fun e => (e.id, e.group)) = r2.map (fun e => (e.id, e.group))) :
    build_config (AllLints.from_response r1) args.profile =
      build_config (AllLints.from_response r2) args.profile ∧
    run r1 args = run r2 args := by
  have hpair : ∀ r : List LintResponse,
      (r.map (fun e => (e.id, e.group))).map
        (fun p : String × LintGroup => (⟨p.1, p.2⟩ : Lint)) = AllLints.from_response r := by
    intro r
    rw [List.map_map]
    rfl
  have hall : AllLints.from_response r1 = AllLints.from_response r2 := by
    rw [← hpair r1, ← hpair r2, h]
  constructor
  · rw [hall]
  · unfold run
    rw [hall]

theorem unused_fields_noninterference_witness :
    ([⟨"a", LintGroup.Pedantic, LintLevel.Allow, "1.0"⟩] : List LintResponse).map
        (fun e => (e.id, e.group)) =
      ([⟨"a", LintGroup.Pedantic, LintLevel.Warn, "2.0"⟩] : List LintResponse).map
        (fun e => (e.id, e.group)) ∧
    (build_config (AllLints.from_response [⟨"a", LintGroup.Pedantic, LintLevel.Allow, "1.0"⟩])
        Profile.Publish =
      build_config (AllLints.from_response [⟨"a", LintGroup.Pedantic, LintLevel.Warn, "2.0"⟩])
        Profile.Publish ∧
     run [⟨"a", LintGroup.Pedantic, LintLevel.Allow, "1.0"⟩] ⟨Profile.Publish, false⟩ =
      run [⟨"a", LintGroup.Pedantic, LintLevel.Warn, "2.0"⟩] ⟨Profile.Publish, false⟩) :=
  ⟨by decide,
    unused_fields_noninterference
      [⟨"a", LintGroup.Pedantic, LintLevel.Allow, "1.0"⟩]
      [⟨"a", LintGroup.Pedantic, LintLevel.Warn, "2.0"⟩]
      ⟨Profile.Publish, false⟩ (by decide)⟩

/-! ## Helper lemmas about the emitter -/

/-- The spec's setting-line format coincides with the emitter's inner
match. -/
theorem spec_setting_line_eq : spec_setting_line = Setting.render := by
  funext s
  cases s with
  | Single c =>
    obtain ⟨lint, pr, lv⟩ := c
    cases pr <;> rfl
  | Group gc =>
    obtain ⟨g, pr, lv⟩ := gc
    cases pr <;> rfl

/-- For a nonempty settings list, the emitter's inner loop produces the
newline-joined setting lines, followed by one newline exactly when the
group is not the last. -/
theorem render_settings_join (last_group : Bool) :
    ∀ l : List Setting, l ≠ [] →
      renderSettings l last_group =
        joinSep "\n" (l.map Setting.render) ++ (if last_group then "" else "\n") := by
  intro l
  induction l with
  | nil => intro h; exact absurd rfl h
  | cons s t ih =>
    intro _
    cases t with
    | nil => cases last_group <;> simp [renderSettings, joinSep]
    | cons t2 rest =>
      have ih2 := ih (by simp)
      have hL : renderSettings (s :: t2 :: rest) last_group =
          Setting.render s ++ "\n" ++ renderSettings (t2 :: rest) last_group := by
        simp only [renderSettings]
      have hR : joinSep "\n" ((s :: t2 :: rest).map Setting.render) =
          Setting.render s ++ "\n" ++ joinSep "\n" ((t2 :: rest).map Setting.render) := by
        simp only [List.map_cons, joinSep]
      rw [hL, ih2, hR]
      simp [String.append_assoc]

/-- For groups all of which hold at least one setting, the emitter's
outer loop produces the group blocks separated by exactly one blank
line. -/
theorem render_groups_join :
    ∀ gs : List ConfigGroup, (∀ g ∈ gs, g.settings ≠ []) →
      renderGroups gs = joinSep "\n\n" (gs.map spec_group_block) := by
  intro gs
  induction gs with
  | nil => intro _; simp [renderGroups, joinSep]
  | cons g t ih =>
    intro h
    cases t with
    | nil =>
      have hg := h g (by simp)
      have hstep : renderGroups [g] = renderGroup g true := by
        simp only [renderGroups]
      rw [hstep]
      unfold renderGroup spec_group_block
      rw [render_settings_join true g.settings hg, spec_setting_line_eq]
      simp [joinSep, String.append_empty]
    | cons g2 rest2 =>
      have hg := h g (by simp)
      have ihr := ih (fun g' hg' => h g' (by simp [hg']))
      have hstep : renderGroups (g :: g2 :: rest2) =
          renderGroup g false ++ renderGroups (g2 :: rest2) := by
        simp only [renderGroups]
      have hR : joinSep "\n\n" ((g :: g2 :: rest2).map spec_group_block) =
          spec_group_block g ++ "\n\n" ++
            joinSep "\n\n" ((g2 :: rest2).map spec_group_block) := by
        simp only [List.map_cons, joinSep]
      rw [hstep, ihr, hR]
      unfold renderGroup spec_group_block
      rw [render_settings_join false g.settings hg, spec_setting_line_eq]
      have h2 : ("\n\n" : String) = "\n" ++ "\n" := rfl
      simp [h2, String.append_assoc]

/-- C7: the emitter's output always starts with the header line selected
by the workspace flag; an empty Config renders as exactly that line; and
for a Config whose groups each hold at least one setting, the output is
the header followed by the group blocks (an optional `# <comment>` line,
then the setting lines in the spec's two formats joined by single
newlines), consecutive blocks separated by exactly one blank line. -/
theorem to_toml_rendering (c : Config) (args : Args) :
    (∃ rest, c.to_toml args =
      (if args.workspace then "[workspace.lints.clippy]\n" else "[lints.clippy]\n") ++ rest) ∧
    (c.groups = [] → c.to_toml args =
      (if args.workspace then "[workspace.lints.clippy]\n" else "[lints.clippy]\n")) ∧
    ((∀ g ∈ c.groups, g.settings ≠ []) → c.to_toml args = spec_render c args) := by
  refine ⟨⟨renderGroups c.groups, rfl⟩, ?_, ?_⟩
  · intro h
    unfold Config.to_toml
    rw [h]
    simp [renderGroups, String.append_empty]
  · intro h
    unfold Config.to_toml spec_render
    rw [render_groups_join c.groups h]

theorem to_toml_rendering_witness :
    (∀ g ∈ [(⟨none, [Setting.Single ⟨"x", PrioritySetting.Unspecified, LintLevel.Allow⟩]⟩ :
              ConfigGroup),
            ⟨none, [Setting.Single ⟨"y", PrioritySetting.Unspecified, LintLevel.Warn⟩]⟩],
      g.settings ≠ []) ∧
    Config.to_toml
        ⟨[⟨none, [Setting.Single ⟨"x", PrioritySetting.Unspecified, LintLevel.Allow⟩]⟩,
          ⟨none, [Setting.Single ⟨"y", PrioritySetting.Unspecified, LintLevel.Warn⟩]⟩]⟩
        ⟨Profile.Publish, false⟩ =
      spec_render
        ⟨[⟨none, [Setting.Single ⟨"x", PrioritySetting.Unspecified, LintLevel.Allow⟩]⟩,
          ⟨none, [Setting.Single ⟨"y", PrioritySetting.Unspecified, LintLevel.Warn⟩]⟩]⟩
        ⟨Profile.Publish, false⟩ :=
  ⟨by decide,
    (to_toml_rendering
      ⟨[⟨none, [Setting.Single ⟨"x", PrioritySetting.Unspecified, LintLevel.Allow⟩]⟩,
        ⟨none, [Setting.Single ⟨"y", PrioritySetting.Unspecified, LintLevel.Warn⟩]⟩]⟩
      ⟨Profile.Publish, false⟩).2.2 (by decide)⟩
